import Mathlib

/-!
Verification of the client lifecycle supervision subsystem of API_empresa:
the client state manager, reconnection manager, chat cache, watchdog monitor
and media queue, shallowly embedded from the JavaScript sources
(`src/utils/clientStateManager.js`, `src/utils/reconnectionManager.js`,
`src/utils/chatCache.js`, `src/utils/watchdogMonitor.js`,
`src/utils/mediaQueue.js`, `src/conf/config.js`).

JavaScript `Map`s are modelled as association lists (`setKey` replaces the
value of an existing key in place and appends otherwise, matching `Map.set`
insertion-order semantics; `delKey` removes a key, `findKey` looks one up).
JavaScript `Set`s are modelled as lists without duplicates (`addMem`,
`delMem`).  Wall-clock reads (`Date.now()`, `new Date()`) become explicit
`now : Nat` parameters, and `Math.random()` becomes an explicit rational
parameter in `[0, 1]`.  `setTimeout` callbacks are modelled as separate
transition functions invoked at an explicit fire time.
-/

/-- Lookup in an association list, as `Map.get`. -/
def findKey {α : Type} : List (String × α) → String → Option α
  | [], _ => none
  | (k2, v) :: rest, k => if k2 = k then some v else findKey rest k

/-- `Map.set`: replace the value of an existing key in place, else append. -/
def setKey {α : Type} (k : String) (v : α) : List (String × α) → List (String × α)
  | [] => [(k, v)]
  | (k2, v2) :: rest => if k2 = k then (k, v) :: rest else (k2, v2) :: setKey k v rest

/-- `Map.delete`: remove a key (association lists built by `setKey` have
unique keys, so removing every occurrence agrees with `Map.delete`). -/
def delKey {α : Type} (k : String) (l : List (String × α)) : List (String × α) :=
  l.filter (fun p => p.1 ≠ k)

/-- `Set.add`: insert an element if absent. -/
def addMem (x : String) (l : List String) : List String :=
  if x ∈ l then l else l ++ [x]

/-- `Set.delete`: remove an element. -/
def delMem (x : String) (l : List String) : List String :=
  l.filter (fun y => y ≠ x)

namespace ClientStateManager

/-- The `CLIENT_STATES` enum of `clientStateManager.js`. -/
inductive ClientState where
  | INITIALIZING
  | WAITING_QR
  | AUTHENTICATING
  | AUTHENTICATED
  | READY
  | DISCONNECTED
  | AUTH_FAILURE
  | ERROR
  | RECONNECTING
  | ZOMBIE
  deriving DecidableEq, Repr

/-- Free-form metadata objects are modelled as string key/value pairs. -/
abbrev Metadata := List (String × String)

/-- One entry of `this.states`: `{state, timestamp, metadata, previousState}`. -/
structure StateEntry where
  state : ClientState
  timestamp : Nat
  metadata : Metadata
  previousState : Option ClientState
  deriving DecidableEq, Repr

/-- One history record: `{number, from, to, timestamp, metadata}`;
`fromState = none` models `'UNKNOWN'`. -/
structure StateChange where
  number : String
  fromState : Option ClientState
  toState : ClientState
  timestamp : Nat
  metadata : Metadata
  deriving DecidableEq, Repr

/-- The mutable state of the `ClientStateManager` singleton. -/
structure CSMState where
  states : List (String × StateEntry)
  stateHistory : List (String × List StateChange)
  deriving DecidableEq, Repr

def initialState : CSMState := ⟨[], []⟩

/-- `setState(number, state, metadata)`, with the wall clock passed in. -/
def setState (number : String) (state : ClientState) (metadata : Metadata)
    (now : Nat) (s : CSMState) : StateChange × CSMState :=
  let previousState := findKey s.states number
  let stateChange : StateChange :=
    ⟨number, previousState.map StateEntry.state, state, now, metadata⟩
  let states := setKey number ⟨state, now, metadata, previousState.map StateEntry.state⟩ s.states
  let history := (findKey s.stateHistory number).getD []
  let pushed := history ++ [stateChange]
  let newHistory := if pushed.length > 50 then pushed.tail else pushed
  (stateChange, ⟨states, setKey number newHistory s.stateHistory⟩)

def getState (number : String) (s : CSMState) : Option StateEntry :=
  findKey s.states number

def getHistory (number : String) (s : CSMState) : List StateChange :=
  (findKey s.stateHistory number).getD []

/-- `isHealthy(number)`: `[AUTHENTICATED, READY].includes(state.state)`. -/
def isHealthy (number : String) (s : CSMState) : Bool :=
  match getState number s with
  | none => false
  | some st => [ClientState.AUTHENTICATED, ClientState.READY].contains st.state

/-- `getStateAge(number)`: `Date.now() - state.timestamp`, `null` if absent. -/
def getStateAge (number : String) (now : Nat) (s : CSMState) : Option Nat :=
  (getState number s).map (fun st => now - st.timestamp)

/-- One recorded `setState` call. -/
structure SetStateOp where
  number : String
  target : ClientState
  metadata : Metadata
  now : Nat
  deriving DecidableEq, Repr

/-- Run a sequence of `setState` calls from the freshly constructed manager. -/
def runSets (ops : List SetStateOp) : CSMState :=
  ops.foldl (fun s op => (setState op.number op.target op.metadata op.now s).2) initialState

end ClientStateManager

namespace ReconnectionManager

/-- `config.reconnectDelay`: `parseInt(process.env.RECONNECT_DELAY) || 5000`. -/
def baseDelay : Nat := 5000

/-- Hard-coded 5 minute cap. -/
def maxDelay : Nat := 300000

/-- `config.maxRetries`: `parseInt(process.env.MAX_RETRIES) || 3` in
`conf/config.js`; `config.maxRetries || 10` therefore yields 3 by default. -/
def maxAttempts : Nat := 3

def backoffMultiplier : Nat := 2

/-- 10% random variation. -/
def jitterFactor : ℚ := 1/10

/-- The exponential delay before jitter: `min(baseDelay * 2^attempt, maxDelay)`. -/
def cappedDelay (attempt : Nat) : Nat :=
  min (baseDelay * backoffMultiplier ^ attempt) maxDelay

/-- `calculateDelay(attempt)` with `Math.random() = rand`:
`Math.floor(delay + delay * jitterFactor * (rand * 2 - 1))`. -/
def calculateDelay (attempt : Nat) (rand : ℚ) : ℤ :=
  ⌊(cappedDelay attempt : ℚ) + (cappedDelay attempt : ℚ) * jitterFactor * (rand * 2 - 1)⌋

/-- The mutable state of the `ReconnectionManager` singleton; pending timers
are tracked by the set of client numbers holding one. -/
structure RMState where
  reconnectAttempts : List (String × Nat)
  reconnectTimers : List String
  lastReconnectTime : List (String × Nat)
  deriving DecidableEq, Repr

def initialState : RMState := ⟨[], [], []⟩

def getAttempts (number : String) (s : RMState) : Nat :=
  (findKey s.reconnectAttempts number).getD 0

def incrementAttempts (number : String) (s : RMState) : Nat × RMState :=
  let next := getAttempts number s + 1
  (next, { s with reconnectAttempts := setKey number next s.reconnectAttempts })

def clearTimer (number : String) (s : RMState) : RMState :=
  { s with reconnectTimers := delMem number s.reconnectTimers }

def resetAttempts (number : String) (s : RMState) : RMState :=
  let s1 := { s with reconnectAttempts := delKey number s.reconnectAttempts }
  let s2 := clearTimer number s1
  { s2 with lastReconnectTime := delKey number s2.lastReconnectTime }

/-- `canReconnect(number)`: attempts below the cap, and not within 2000ms of
the recorded last attempt (`lastAttempt &&` is a JS truthiness test, hence
the explicit `≠ 0`). -/
def canReconnect (number : String) (now : Nat) (s : RMState) : Bool :=
  if getAttempts number s ≥ maxAttempts then false
  else
    match findKey s.lastReconnectTime number with
    | some lastAttempt => if lastAttempt ≠ 0 ∧ now - lastAttempt < 2000 then false else true
    | none => true

/-- `scheduleReconnection(number, callback)`: returns `{attempt, delay}` and
arms a timer, or `null`.  `lastReconnectTime` is not touched here, it is only
written when the armed timer later fires (see `timerFire`). -/
def scheduleReconnection (number : String) (now : Nat) (rand : ℚ) (s : RMState) :
    Option (Nat × ℤ) × RMState :=
  if canReconnect number now s = false then (none, s)
  else
    let p := incrementAttempts number s
    let delay := calculateDelay p.1 rand
    let s2 := clearTimer number p.2
    let s3 := { s2 with reconnectTimers := addMem number s2.reconnectTimers }
    (some (p.1, delay), s3)

/-- The body of the armed `setTimeout` callback: records
`lastReconnectTime = Date.now()`, then on callback success resets the
attempt counter, and on failure reschedules if still allowed. -/
def timerFire (number : String) (fireTime : Nat) (success : Bool) (rand : ℚ)
    (s : RMState) : RMState :=
  let s1 := { s with lastReconnectTime := setKey number fireTime s.lastReconnectTime }
  if success then resetAttempts number s1
  else if canReconnect number fireTime s1 then (scheduleReconnection number fireTime rand s1).2
  else s1

/-- The record returned by `getStatus(number)`. -/
structure ReconnectStatus where
  attempts : Nat
  maxAttempts : Nat
  hasScheduledReconnect : Bool
  lastReconnectTime : Option Nat
  canReconnect : Bool
  deriving DecidableEq, Repr

def getStatus (number : String) (now : Nat) (s : RMState) : ReconnectStatus :=
  { attempts := getAttempts number s
    maxAttempts := maxAttempts
    hasScheduledReconnect := number ∈ s.reconnectTimers
    lastReconnectTime := findKey s.lastReconnectTime number
    canReconnect := canReconnect number now s }

end ReconnectionManager

namespace ChatCache

/-- One entry of the per-client chat map of `chatCache.js`. -/
structure ChatData where
  id : String
  name : String
  isGroup : Bool
  unreadCount : Nat
  timestamp : Nat
  lastMessage : Option String
  profilePicUrl : Option String
  deriving DecidableEq, Repr

/-- One entry of the per-client group sub-index (`groupCache`).  Participant
lists are modelled by their ids only; raw group metadata is opaque. -/
structure GroupData where
  id : String
  groupId : String
  name : String
  isGroup : Bool
  unreadCount : Nat
  timestamp : Nat
  lastMessage : Option String
  profilePicUrl : Option String
  participants : List String
  participantCount : Nat
  deriving DecidableEq, Repr

/-- The mutable state of the `ChatCacheManager` singleton (the fields the
read/unread operations touch). -/
structure CCState where
  chatCache : List (String × List (String × ChatData))
  unreadChats : List (String × List String)
  groupCache : List (String × List (String × GroupData))
  deriving DecidableEq, Repr

/-- The group-mirroring step shared by `markAsUnread`/`markAsRead`:
`groupMap?.get(chatId)` updated with the chat's unread count and timestamp. -/
def mirrorToGroup (clientNumber chatId : String) (unreadCount timestamp : Nat)
    (groupCache : List (String × List (String × GroupData))) :
    List (String × List (String × GroupData)) :=
  match findKey groupCache clientNumber with
  | none => groupCache
  | some groupMap =>
    match findKey groupMap chatId with
    | none => groupCache
    | some group =>
      setKey clientNumber
        (setKey chatId { group with unreadCount := unreadCount, timestamp := timestamp } groupMap)
        groupCache

/-- `markAsUnread(clientNumber, chatId, incrementBy)`: bump the unread count
and timestamp, mirror to the group entry when the chat is a group, and add
the chat id to the unread set.  A no-op when the client cache or unread set
is missing. -/
def markAsUnread (clientNumber chatId : String) (incrementBy now : Nat)
    (s : CCState) : CCState :=
  match findKey s.chatCache clientNumber, findKey s.unreadChats clientNumber with
  | some clientCache, some unreadSet =>
    let updated :=
      match findKey clientCache chatId with
      | some chat =>
        let chat2 := { chat with unreadCount := chat.unreadCount + incrementBy, timestamp := now }
        let cache2 := setKey chatId chat2 clientCache
        let groups2 :=
          if chat.isGroup then
            mirrorToGroup clientNumber chatId chat2.unreadCount chat2.timestamp s.groupCache
          else s.groupCache
        (cache2, groups2)
      | none => (clientCache, s.groupCache)
    { chatCache := setKey clientNumber updated.1 s.chatCache
      unreadChats := setKey clientNumber (addMem chatId unreadSet) s.unreadChats
      groupCache := updated.2 }
  | _, _ => s

/-- `markAsRead(clientNumber, chatId)`: reset the unread count to 0, bump the
timestamp, mirror to the group entry, and remove the chat id from the unread
set.  A no-op when the client cache or unread set is missing. -/
def markAsRead (clientNumber chatId : String) (now : Nat) (s : CCState) : CCState :=
  match findKey s.chatCache clientNumber, findKey s.unreadChats clientNumber with
  | some clientCache, some unreadSet =>
    let updated :=
      match findKey clientCache chatId with
      | some chat =>
        let chat2 := { chat with unreadCount := 0, timestamp := now }
        let cache2 := setKey chatId chat2 clientCache
        let groups2 :=
          if chat.isGroup then
            mirrorToGroup clientNumber chatId 0 chat2.timestamp s.groupCache
          else s.groupCache
        (cache2, groups2)
      | none => (clientCache, s.groupCache)
    { chatCache := setKey clientNumber updated.1 s.chatCache
      unreadChats := setKey clientNumber (delMem chatId unreadSet) s.unreadChats
      groupCache := updated.2 }
  | _, _ => s

end ChatCache

namespace MediaQueue

/-- A media job (`mediaQueue.js`); the wrapped message object is opaque, its
`type` field is kept. -/
structure MediaJob where
  messageId : String
  clientId : String
  priority : Nat
  attempts : Nat
  enqueuedAt : Nat
  mediaType : String
  deriving DecidableEq, Repr

/-- Completed media payloads are opaque tokens. -/
abbrev MediaData := Nat

/-- The mutable state of the `MediaQueue` singleton. -/
structure MQState where
  queue : List (String × MediaJob)
  processing : List String
  completed : List (String × MediaData)
  deriving DecidableEq, Repr

/-- The record returned by `enqueue`. -/
inductive EnqueueResult where
  | completed (data : MediaData)
  | processing
  | enqueued
  deriving DecidableEq, Repr

/-- `enqueue(messageId, message, clientId, priority)`. -/
def enqueue (messageId clientId mediaType : String) (priority : Nat) (now : Nat)
    (s : MQState) : EnqueueResult × MQState :=
  match findKey s.completed messageId with
  | some data => (.completed data, s)
  | none =>
    if (findKey s.queue messageId).isSome || messageId ∈ s.processing then
      (.processing, s)
    else
      let job : MediaJob := ⟨messageId, clientId, priority, 0, now, mediaType⟩
      (.enqueued, { s with queue := setKey messageId job s.queue })

/-- The sort comparator of `getNextJob`/`getQueuePosition`, as the boolean
order it sorts ascending by: priority first, then `enqueuedAt`. -/
def jobLE (a b : MediaJob) : Bool :=
  if a.priority ≠ b.priority then a.priority < b.priority
  else a.enqueuedAt ≤ b.enqueuedAt

/-- `getNextJob()`: sort the queued jobs by `(priority asc, enqueuedAt asc)`,
pop the first, and move its id into the processing set. -/
def getNextJob (s : MQState) : Option (MediaJob × MQState) :=
  match (s.queue.map Prod.snd).mergeSort jobLE with
  | [] => none
  | job :: _ =>
    some (job,
      { s with
        queue := delKey job.messageId s.queue
        processing := addMem job.messageId s.processing })

/-- `getQueuePosition(messageId)`: 1-based index in the sorted queue. -/
def getQueuePosition (messageId : String) (s : MQState) : Nat :=
  ((s.queue.map Prod.snd).mergeSort jobLE).findIdx (fun j => j.messageId == messageId) + 1

/-- The record returned by `getStatus`. -/
inductive MediaStatus where
  | completed (data : MediaData)
  | processing
  | queued (position : Nat) (enqueuedAt : Nat)
  | notFound
  deriving DecidableEq, Repr

/-- `getStatus(messageId)`: completed, then processing, then queued, else
`not_found`. -/
def getStatus (messageId : String) (s : MQState) : MediaStatus :=
  match findKey s.completed messageId with
  | some data => .completed data
  | none =>
    if messageId ∈ s.processing then .processing
    else
      match findKey s.queue messageId with
      | some job => .queued (getQueuePosition messageId s) job.enqueuedAt
      | none => .notFound

end MediaQueue

namespace Watchdog

open ClientStateManager

/-- `MAX_STATE_AGE` default: 15 minutes. -/
def maxStateAge : Nat := 900000

/-- `MAX_QR_AGE` default: 3 minutes. -/
def maxQrAge : Nat := 180000

/-- `MAX_INIT_TIME` default: 5 minutes. -/
def maxInitializationTime : Nat := 300000

/-- `checkStateValid(number, state)` of `watchdogMonitor.js`; the state entry
is the one `stateManager.getState(number)` returns, and `stateAge` is
`getStateAge(number) = Date.now() - entry.timestamp`. -/
def checkStateValid (state : Option StateEntry) (now : Nat) : Bool :=
  match state with
  | none => false
  | some st =>
    let stateAge := now - st.timestamp
    if st.state = ClientState.WAITING_QR ∧ stateAge > maxQrAge then false
    else if st.state = ClientState.INITIALIZING ∧ stateAge > maxInitializationTime then false
    else if (st.state = ClientState.AUTHENTICATING ∨ st.state = ClientState.RECONNECTING ∨
             st.state = ClientState.DISCONNECTED) ∧ stateAge > maxStateAge then false
    else true

/-- Modelled from the spec (for comparison with `checkStateValid`): the
client "is stuck past a threshold in a transitional state" — WAITING_QR
beyond 180s, INITIALIZING beyond 300s, or AUTHENTICATING/RECONNECTING/
DISCONNECTED beyond 900s. -/
def stuckPastThresholdSpec (state : Option StateEntry) (now : Nat) : Bool :=
  match state with
  | none => false
  | some st =>
    let stateAge := now - st.timestamp
    decide ((st.state = ClientState.WAITING_QR ∧ stateAge > 180000) ∨
      (st.state = ClientState.INITIALIZING ∧ stateAge > 300000) ∨
      ((st.state = ClientState.AUTHENTICATING ∨ st.state = ClientState.RECONNECTING ∨
        st.state = ClientState.DISCONNECTED) ∧ stateAge > 900000))

/-- The four boolean results computed by `checkClientHealth`. -/
structure HealthChecks where
  processAlive : Bool
  browserResponsive : Bool
  stateValid : Bool
  websocketActive : Bool
  deriving DecidableEq, Repr

/-- The recovery actions `attemptRecovery` can run. -/
inductive RecoveryStep where
  | fullRestart
  | refresh
  | reconnectWebSocket
  deriving DecidableEq, Repr

/-- `attemptRecovery(number, failedChecks)` as the sequence of recovery
actions executed: dead process/browser means a full restart; an invalid
state means `refreshClient`, whose `client.initialize()` throwing
(`refreshThrows`) falls back to `fullRestart`; an inactive websocket means
`reconnectWebSocket`, with the same fallback on throw. -/
def attemptRecovery (checks : HealthChecks) (refreshThrows wsThrows : Bool) :
    List RecoveryStep :=
  if ¬ checks.processAlive ∨ ¬ checks.browserResponsive then [.fullRestart]
  else if ¬ checks.stateValid then
    if refreshThrows then [.refresh, .fullRestart] else [.refresh]
  else if ¬ checks.websocketActive then
    if wsThrows then [.reconnectWebSocket, .fullRestart] else [.reconnectWebSocket]
  else []

end Watchdog

theorem findKey_setKey {α : Type} (k k2 : String) (v : α) (l : List (String × α)) :
    findKey (setKey k v l) k2 = if k = k2 then some v else findKey l k2 := by
  induction l with
  | nil => simp [setKey, findKey]
  | cons hd tl ih =>
    obtain ⟨k1, v1⟩ := hd
    by_cases h1 : k1 = k
    · subst h1
      by_cases h2 : k1 = k2 <;> simp [setKey, findKey, h2]
    · by_cases h2 : k1 = k2
      · subst h2
        have : ¬ k = k1 := fun h => h1 h.symm
        simp [setKey, findKey, h1, this]
      · simp [setKey, findKey, h1, h2, ih]

theorem findKey_delKey_self {α : Type} (k : String) (l : List (String × α)) :
    findKey (delKey k l) k = none := by
  induction l with
  | nil => simp [delKey, findKey]
  | cons hd tl ih =>
    obtain ⟨k1, v1⟩ := hd
    by_cases h1 : k1 = k
    · subst h1
      simpa [delKey, findKey] using ih
    · simpa [delKey, findKey, h1] using ih

theorem not_mem_delMem (x : String) (l : List String) : x ∉ delMem x l := by
  simp [delMem]

/-- C9: `isHealthy(clientId)` is true iff the client's current state exists
and is AUTHENTICATED or READY; for the other eight states, and when no
entry exists, it is false. -/
theorem claim_c9_isHealthy (number : String) (s : ClientStateManager.CSMState) :
    ClientStateManager.isHealthy number s = true ↔
      ∃ st, ClientStateManager.getState number s = some st ∧
        (st.state = ClientStateManager.ClientState.AUTHENTICATED ∨
         st.state = ClientStateManager.ClientState.READY) := by
  unfold ClientStateManager.isHealthy
  cases h : ClientStateManager.getState number s with
  | none => simp
  | some st =>
    simp only [h, Option.some.injEq, List.contains_cons, List.contains_nil,
      Bool.or_false, Bool.or_eq_true, beq_iff_eq]
    constructor
    · intro hmem
      exact ⟨st, rfl, by tauto⟩
    · rintro ⟨st2, hst2, hmem⟩
      cases hst2
      tauto

theorem findKey_setKey_self {α : Type} (k : String) (v : α) (l : List (String × α)) :
    findKey (setKey k v l) k = some v := by
  rw [findKey_setKey]
  simp

theorem push_shift_eq {α : Type} (old : List α) (c : α) :
    (if (old ++ [c]).length > 50 then (old ++ [c]).tail else old ++ [c]) =
      (if old.length < 50 then old else old.tail) ++ [c] := by
  by_cases h : old.length < 50
  · rw [if_pos h, if_neg (by simp; omega)]
  · rw [if_neg h, if_pos (by simp; omega)]
    cases old with
    | nil => simp at h
    | cons a t => simp

theorem getHistory_setState_self (s : ClientStateManager.CSMState) (number : String)
    (st : ClientStateManager.ClientState) (meta : ClientStateManager.Metadata) (now : Nat) :
    ClientStateManager.getHistory number (ClientStateManager.setState number st meta now s).2 =
      (if (ClientStateManager.getHistory number s).length < 50 then
        ClientStateManager.getHistory number s
      else (ClientStateManager.getHistory number s).tail) ++
      [⟨number, (ClientStateManager.getState number s).map ClientStateManager.StateEntry.state,
        st, now, meta⟩] := by
  unfold ClientStateManager.setState ClientStateManager.getHistory ClientStateManager.getState
  simp only [findKey_setKey_self, Option.getD_some]
  exact push_shift_eq _ _

theorem getHistory_setState_other (s : ClientStateManager.CSMState) (number other : String)
    (st : ClientStateManager.ClientState) (meta : ClientStateManager.Metadata) (now : Nat)
    (h : number ≠ other) :
    ClientStateManager.getHistory other (ClientStateManager.setState number st meta now s).2 =
      ClientStateManager.getHistory other s := by
  unfold ClientStateManager.setState ClientStateManager.getHistory
  rw [findKey_setKey, if_neg h]

theorem getHistory_runSets_length_le (ops : List ClientStateManager.SetStateOp) :
    ∀ number, (ClientStateManager.getHistory number (ClientStateManager.runSets ops)).length ≤ 50 := by
  have aux : ∀ (l : List ClientStateManager.SetStateOp) (s : ClientStateManager.CSMState),
      (∀ n, (ClientStateManager.getHistory n s).length ≤ 50) →
      ∀ n, (ClientStateManager.getHistory n
        (l.foldl (fun s op =>
          (ClientStateManager.setState op.number op.target op.metadata op.now s).2) s)).length ≤ 50 := by
    intro l
    induction l with
    | nil => intro s h n; exact h n
    | cons op rest ih =>
      intro s h n
      refine ih _ ?_ n
      intro n2
      by_cases hn : op.number = n2
      · subst hn
        rw [getHistory_setState_self]
        have := h op.number
        rw [List.length_append]
        split
        · simp
          omega
        · simp [List.length_tail]
          omega
      · rw [getHistory_setState_other _ _ _ _ _ _ hn]
        exact h n2
  intro number
  refine aux ops ClientStateManager.initialState ?_ number
  intro n
  simp [ClientStateManager.getHistory, ClientStateManager.initialState, findKey]

/-- C2: for every client and every sequence of `setState` calls, the
history never exceeds 50 entries, and a further transition is appended at
the end (most-recent-last), evicting exactly the oldest entry once the
history holds 50 entries (ring-buffer semantics). -/
theorem claim_c2_history_ring_buffer (ops : List ClientStateManager.SetStateOp)
    (number : String) (st : ClientStateManager.ClientState)
    (meta : ClientStateManager.Metadata) (now : Nat) :
    (ClientStateManager.getHistory number (ClientStateManager.runSets ops)).length ≤ 50 ∧
    ClientStateManager.getHistory number
      (ClientStateManager.setState number st meta now (ClientStateManager.runSets ops)).2 =
      (if (ClientStateManager.getHistory number (ClientStateManager.runSets ops)).length < 50 then
        ClientStateManager.getHistory number (ClientStateManager.runSets ops)
      else (ClientStateManager.getHistory number (ClientStateManager.runSets ops)).tail) ++
      [⟨number,
        (ClientStateManager.getState number (ClientStateManager.runSets ops)).map
          ClientStateManager.StateEntry.state, st, now, meta⟩] :=
  ⟨getHistory_runSets_length_le ops number, getHistory_setState_self _ _ _ _ _⟩

theorem cappedDelay_dvd (attempt : Nat) : ∃ k, ReconnectionManager.cappedDelay attempt = 10 * k := by
  unfold ReconnectionManager.cappedDelay ReconnectionManager.baseDelay
    ReconnectionManager.backoffMultiplier ReconnectionManager.maxDelay
  rcases min_choice (5000 * 2 ^ attempt) 300000 with h | h
  · exact ⟨500 * 2 ^ attempt, by rw [h]; ring⟩
  · exact ⟨30000, by rw [h]⟩

/-- C3: the pre-jitter reconnection delay for attempt `a` is
`min(baseDelay * backoffMultiplier^a, maxDelay)` (defaults 5000ms, 2,
300000ms), it is monotonically non-decreasing in the attempt count, and the
jittered delay differs from it by at most `jitterFactor` (0.1) of it. -/
theorem claim_c3_backoff_delay (attempt : Nat) (rand : ℚ)
    (h0 : 0 ≤ rand) (h1 : rand ≤ 1) :
    ReconnectionManager.cappedDelay attempt =
      min (ReconnectionManager.baseDelay * ReconnectionManager.backoffMultiplier ^ attempt)
        ReconnectionManager.maxDelay ∧
    ReconnectionManager.cappedDelay attempt ≤ ReconnectionManager.cappedDelay (attempt + 1) ∧
    |(ReconnectionManager.calculateDelay attempt rand : ℚ) -
        (ReconnectionManager.cappedDelay attempt : ℚ)| ≤
      ReconnectionManager.jitterFactor * (ReconnectionManager.cappedDelay attempt : ℚ) := by
  refine ⟨rfl, ?_, ?_⟩
  · unfold ReconnectionManager.cappedDelay
    refine min_le_min (Nat.mul_le_mul_left _ ?_) le_rfl
    exact Nat.pow_le_pow_right (by norm_num [ReconnectionManager.backoffMultiplier])
      (Nat.le_succ attempt)
  · obtain ⟨k, hk⟩ := cappedDelay_dvd attempt
    unfold ReconnectionManager.calculateDelay ReconnectionManager.jitterFactor
    rw [hk]
    push_cast
    have hk0 : (0 : ℚ) ≤ (k : ℚ) := Nat.cast_nonneg k
    have hxlow : (((9 * k : ℤ) : ℚ)) ≤
        (10 * k : ℚ) + (10 * k : ℚ) * (1 / 10) * (rand * 2 - 1) := by
      push_cast
      nlinarith
    have hxhigh : (10 * k : ℚ) + (10 * k : ℚ) * (1 / 10) * (rand * 2 - 1) ≤ 11 * k := by
      nlinarith
    have hfl : (9 * k : ℤ) ≤ ⌊(10 * k : ℚ) + (10 * k : ℚ) * (1 / 10) * (rand * 2 - 1)⌋ :=
      Int.le_floor.mpr hxlow
    have hfl2 : ((9 * k : ℤ) : ℚ) ≤
        (⌊(10 * k : ℚ) + (10 * k : ℚ) * (1 / 10) * (rand * 2 - 1)⌋ : ℚ) := by
      exact_mod_cast hfl
    have hfu : (⌊(10 * k : ℚ) + (10 * k : ℚ) * (1 / 10) * (rand * 2 - 1)⌋ : ℚ) ≤
        (10 * k : ℚ) + (10 * k : ℚ) * (1 / 10) * (rand * 2 - 1) :=
      Int.floor_le _
    rw [abs_le]
    push_cast at hfl2
    constructor
    · linarith
    · linarith

theorem claim_c3_witness :
    0 ≤ (1/2 : ℚ) ∧ (1/2 : ℚ) ≤ 1 ∧
    (ReconnectionManager.cappedDelay 0 =
      min (ReconnectionManager.baseDelay * ReconnectionManager.backoffMultiplier ^ 0)
        ReconnectionManager.maxDelay ∧
    ReconnectionManager.cappedDelay 0 ≤ ReconnectionManager.cappedDelay 1 ∧
    |(ReconnectionManager.calculateDelay 0 (1/2) : ℚ) -
        (ReconnectionManager.cappedDelay 0 : ℚ)| ≤
      ReconnectionManager.jitterFactor * (ReconnectionManager.cappedDelay 0 : ℚ)) :=
  ⟨by norm_num, by norm_num, claim_c3_backoff_delay 0 (1/2) (by norm_num) (by norm_num)⟩

/-- C5: re-enqueuing a messageId whose job is already completed, queued, or
processing returns the job's current status (`completed` with the cached
data for a completed job, the in-flight `processing` status otherwise)
and leaves the queue state unchanged — no duplicate job, no restarted work,
whatever priority the second call passes. -/
theorem claim_c5_enqueue_idempotent (s : MediaQueue.MQState)
    (messageId clientId mediaType : String) (priority now : Nat)
    (h : findKey s.completed messageId ≠ none ∨
      (findKey s.queue messageId).isSome = true ∨ messageId ∈ s.processing) :
    MediaQueue.enqueue messageId clientId mediaType priority now s =
      ((match findKey s.completed messageId with
        | some data => MediaQueue.EnqueueResult.completed data
        | none => MediaQueue.EnqueueResult.processing), s) := by
  unfold MediaQueue.enqueue
  cases hc : findKey s.completed messageId with
  | some data => simp
  | none =>
    have hq : ((findKey s.queue messageId).isSome || decide (messageId ∈ s.processing)) = true := by
      rcases h with h | h | h
      · exact absurd hc h
      · simp [h]
      · simp [h]
    simp [hq]

theorem claim_c5_witness :
    MediaQueue.enqueue "m1" "c1" "image" 2 0 ⟨[], [], [("m1", 7)]⟩ =
      (MediaQueue.EnqueueResult.completed 7, ⟨[], [], [("m1", 7)]⟩) :=
  claim_c5_enqueue_idempotent ⟨[], [], [("m1", 7)]⟩ "m1" "c1" "image" 2 0
    (Or.inl (by decide))

/-- C10: `getStatus` reports `not_found` exactly when the messageId is in
none of the completed map, the processing set, or the queue, and the three
collections are consulted in the fixed order completed, processing, queued,
so every messageId gets exactly one status. -/
theorem claim_c10_getStatus (s : MediaQueue.MQState) (messageId : String) :
    (MediaQueue.getStatus messageId s = MediaQueue.MediaStatus.notFound ↔
      findKey s.completed messageId = none ∧ messageId ∉ s.processing ∧
        findKey s.queue messageId = none) ∧
    (∀ data, findKey s.completed messageId = some data →
      MediaQueue.getStatus messageId s = MediaQueue.MediaStatus.completed data) ∧
    (findKey s.completed messageId = none → messageId ∈ s.processing →
      MediaQueue.getStatus messageId s = MediaQueue.MediaStatus.processing) ∧
    (findKey s.completed messageId = none → messageId ∉ s.processing →
      ∀ job, findKey s.queue messageId = some job →
        MediaQueue.getStatus messageId s =
          MediaQueue.MediaStatus.queued (MediaQueue.getQueuePosition messageId s)
            job.enqueuedAt) := by
  unfold MediaQueue.getStatus
  cases hc : findKey s.completed messageId with
  | some data => simp
  | none =>
    by_cases hp : messageId ∈ s.processing
    · simp [hp]
    · cases hq : findKey s.queue messageId with
      | some job => simp [hp, hq]
      | none => simp [hp, hq]

theorem claim_c10_witness :
    MediaQueue.getStatus "m1" ⟨[], [], []⟩ = MediaQueue.MediaStatus.notFound :=
  (claim_c10_getStatus ⟨[], [], []⟩ "m1").1.mpr ⟨rfl, by simp, rfl⟩

/-- C4 (counterexample): the reconnection manager's `maxAttempts` defaults
to 3, not 10 — `config.maxRetries` is `parseInt(MAX_RETRIES) || 3`, so
`config.maxRetries || 10` yields 3.  A client with 3 recorded attempts
(fewer than the claimed default of 10) is already refused. -/
theorem claim_c4_counterexample :
    ReconnectionManager.maxAttempts = 3 ∧
    ReconnectionManager.getAttempts "client1" ⟨[("client1", 3)], [], []⟩ = 3 ∧
    (3 : Nat) < 10 ∧
    (ReconnectionManager.scheduleReconnection "client1" 0 (1/2)
      ⟨[("client1", 3)], [], []⟩).1 = none ∧
    (ReconnectionManager.getStatus "client1" 0
      ⟨[("client1", 3)], [], []⟩).canReconnect = false :=
  ⟨rfl, rfl, by norm_num, rfl, rfl⟩

/-- C4 (amended: the default `maxAttempts` is 3, not 10): once a client's
attempt counter reaches `maxAttempts`, `scheduleReconnection` returns null
and leaves the state unchanged, `getStatus(id).canReconnect` is false, and
after `resetAttempts` the status is reconnectable again and scheduling
succeeds with attempt 1. -/
theorem claim_c4_amended (s : ReconnectionManager.RMState) (number : String)
    (now : Nat) (rand : ℚ)
    (h : ReconnectionManager.maxAttempts ≤ ReconnectionManager.getAttempts number s) :
    (ReconnectionManager.scheduleReconnection number now rand s).1 = none ∧
    (ReconnectionManager.scheduleReconnection number now rand s).2 = s ∧
    (ReconnectionManager.getStatus number now s).canReconnect = false ∧
    (ReconnectionManager.getStatus number now
      (ReconnectionManager.resetAttempts number s)).canReconnect = true ∧
    (ReconnectionManager.scheduleReconnection number now rand
      (ReconnectionManager.resetAttempts number s)).1 =
        some (1, ReconnectionManager.calculateDelay 1 rand) := by
  have hc : ReconnectionManager.canReconnect number now s = false := by
    unfold ReconnectionManager.canReconnect
    simp [ge_iff_le, h]
  have hreset : ReconnectionManager.canReconnect number now
      (ReconnectionManager.resetAttempts number s) = true := by
    unfold ReconnectionManager.canReconnect ReconnectionManager.resetAttempts
      ReconnectionManager.getAttempts ReconnectionManager.clearTimer
    simp [findKey_delKey_self, ReconnectionManager.maxAttempts]
  refine ⟨?_, ?_, ?_, ?_, ?_⟩
  · simp [ReconnectionManager.scheduleReconnection, hc]
  · simp [ReconnectionManager.scheduleReconnection, hc]
  · simp [ReconnectionManager.getStatus, hc]
  · simp [ReconnectionManager.getStatus, hreset]
  · have hatt : ReconnectionManager.getAttempts number
        (ReconnectionManager.resetAttempts number s) = 0 := by
      unfold ReconnectionManager.getAttempts ReconnectionManager.resetAttempts
        ReconnectionManager.clearTimer
      simp [findKey_delKey_self]
    simp [ReconnectionManager.scheduleReconnection, hreset,
      ReconnectionManager.incrementAttempts, hatt]

theorem claim_c4_witness :
    (ReconnectionManager.scheduleReconnection "client1" 0 (1/2)
      ⟨[("client1", 3)], ["client1"], []⟩).1 = none ∧
    (ReconnectionManager.getStatus "client1" 0
      (ReconnectionManager.resetAttempts "client1"
        ⟨[("client1", 3)], ["client1"], []⟩)).canReconnect = true :=
  ⟨(claim_c4_amended ⟨[("client1", 3)], ["client1"], []⟩ "client1" 0 (1/2)
      (by decide)).1,
   (claim_c4_amended ⟨[("client1", 3)], ["client1"], []⟩ "client1" 0 (1/2)
      (by decide)).2.2.2.1⟩

/-- C1 (counterexample): the claim fails — a second `scheduleReconnection`
1000ms after the first scheduling is NOT rejected: it returns
`{attempt: 2, delay}`, because `lastReconnectTime` (the basis of the 2s
spacing guard) is only written when an armed timer fires, not at scheduling
time. -/
theorem claim_c1_counterexample :
    (ReconnectionManager.scheduleReconnection "client1" 0 (1/2)
      ReconnectionManager.initialState).1 =
        some (1, ReconnectionManager.calculateDelay 1 (1/2)) ∧
    (ReconnectionManager.scheduleReconnection "client1" 1000 (1/2)
      (ReconnectionManager.scheduleReconnection "client1" 0 (1/2)
        ReconnectionManager.initialState).2).1 =
          some (2, ReconnectionManager.calculateDelay 2 (1/2)) :=
  ⟨rfl, rfl⟩

/-- C1 (amended): the minimum-spacing guard keys off `lastReconnectTime`,
which only a firing timer writes.  `scheduleReconnection` called within 2s
of the recorded last attempt execution returns null and leaves the state
unchanged; scheduling itself never writes `lastReconnectTime` (so a second
call within 2s of a mere scheduling is not rejected); and the first call
for a fresh client returns `{attempt: 1, delay}`. -/
theorem claim_c1_amended (s : ReconnectionManager.RMState) (number : String)
    (now lastAttempt : Nat) (rand : ℚ)
    (hlast : findKey s.lastReconnectTime number = some lastAttempt)
    (hne : lastAttempt ≠ 0) (hrecent : now - lastAttempt < 2000) :
    (ReconnectionManager.scheduleReconnection number now rand s).1 = none ∧
    (ReconnectionManager.scheduleReconnection number now rand s).2 = s ∧
    (∀ (s2 : ReconnectionManager.RMState) (n2 : String) (now2 : Nat) (r2 : ℚ),
      ((ReconnectionManager.scheduleReconnection n2 now2 r2 s2).2).lastReconnectTime =
        s2.lastReconnectTime) ∧
    (ReconnectionManager.scheduleReconnection number now rand
      ReconnectionManager.initialState).1 =
        some (1, ReconnectionManager.calculateDelay 1 rand) := by
  have hc : ReconnectionManager.canReconnect number now s = false := by
    unfold ReconnectionManager.canReconnect
    split
    · rfl
    · rw [hlast]
      simp [hne, hrecent]
  refine ⟨?_, ?_, ?_, rfl⟩
  · simp [ReconnectionManager.scheduleReconnection, hc]
  · simp [ReconnectionManager.scheduleReconnection, hc]
  · intro s2 n2 now2 r2
    unfold ReconnectionManager.scheduleReconnection
    split <;> rfl

theorem claim_c1_witness :
    (ReconnectionManager.scheduleReconnection "client1" 6000 (1/2)
      ⟨[], [], [("client1", 5000)]⟩).1 = none :=
  (claim_c1_amended ⟨[], [], [("client1", 5000)]⟩ "client1" 6000 5000 (1/2)
    rfl (by decide) (by decide)).1

theorem markAsRead_clears (s : ChatCache.CCState) (clientNumber chatId : String) (now : Nat)
    (cc : List (String × ChatCache.ChatData)) (us : List String)
    (h1 : findKey s.chatCache clientNumber = some cc)
    (h2 : findKey s.unreadChats clientNumber = some us) :
    (∀ cache chat,
      findKey (ChatCache.markAsRead clientNumber chatId now s).chatCache clientNumber = some cache →
      findKey cache chatId = some chat → chat.unreadCount = 0) ∧
    (∀ u,
      findKey (ChatCache.markAsRead clientNumber chatId now s).unreadChats clientNumber = some u →
      chatId ∉ u) := by
  unfold ChatCache.markAsRead
  rw [h1, h2]
  cases hch : findKey cc chatId with
  | some chat =>
    simp only [hch]
    constructor
    · intro cache chat2 hcache hchat
      rw [findKey_setKey_self] at hcache
      cases hcache
      rw [findKey_setKey_self] at hchat
      cases hchat
      rfl
    · intro u hu
      rw [findKey_setKey_self] at hu
      cases hu
      exact not_mem_delMem _ _
  | none =>
    simp only [hch]
    constructor
    · intro cache chat2 hcache hchat
      rw [findKey_setKey_self] at hcache
      cases hcache
      rw [hch] at hchat
      exact absurd hchat (by simp)
    · intro u hu
      rw [findKey_setKey_self] at hu
      cases hu
      exact not_mem_delMem _ _

theorem markAsUnread_lookups (s : ChatCache.CCState) (clientNumber chatId : String)
    (incrementBy now : Nat) (cc : List (String × ChatCache.ChatData)) (us : List String)
    (h1 : findKey s.chatCache clientNumber = some cc)
    (h2 : findKey s.unreadChats clientNumber = some us) :
    ∃ cc2 us2,
      findKey (ChatCache.markAsUnread clientNumber chatId incrementBy now s).chatCache
        clientNumber = some cc2 ∧
      findKey (ChatCache.markAsUnread clientNumber chatId incrementBy now s).unreadChats
        clientNumber = some us2 := by
  unfold ChatCache.markAsUnread
  rw [h1, h2]
  exact ⟨_, _, findKey_setKey_self _ _ _, findKey_setKey_self _ _ _⟩

/-- C6: `markAsUnread` followed by `markAsRead` on the same chat id leaves
that chat's `unreadCount` at 0 and the chat id absent from the unread
index.  (The hypothesis records the module invariant that a client's chat
map and unread set are created and cleared together.) -/
theorem claim_c6_roundtrip (s : ChatCache.CCState) (clientNumber chatId : String)
    (incrementBy now1 now2 : Nat)
    (hsync : (findKey s.chatCache clientNumber).isSome =
      (findKey s.unreadChats clientNumber).isSome) :
    (∀ cache chat,
      findKey (ChatCache.markAsRead clientNumber chatId now2
        (ChatCache.markAsUnread clientNumber chatId incrementBy now1 s)).chatCache
          clientNumber = some cache →
      findKey cache chatId = some chat → chat.unreadCount = 0) ∧
    (∀ u,
      findKey (ChatCache.markAsRead clientNumber chatId now2
        (ChatCache.markAsUnread clientNumber chatId incrementBy now1 s)).unreadChats
          clientNumber = some u →
      chatId ∉ u) := by
  cases hcc : findKey s.chatCache clientNumber with
  | none =>
    cases huc : findKey s.unreadChats clientNumber with
    | none =>
      have hs1 : ChatCache.markAsUnread clientNumber chatId incrementBy now1 s = s := by
        unfold ChatCache.markAsUnread
        rw [hcc]
      have hs2 : ChatCache.markAsRead clientNumber chatId now2 s = s := by
        unfold ChatCache.markAsRead
        rw [hcc]
      rw [hs1, hs2]
      constructor
      · intro cache chat hcache
        rw [hcc] at hcache
        exact absurd hcache (by simp)
      · intro u hu
        rw [huc] at hu
        exact absurd hu (by simp)
    | some us0 =>
      rw [hcc, huc] at hsync
      simp at hsync
  | some cc0 =>
    cases huc : findKey s.unreadChats clientNumber with
    | none =>
      rw [hcc, huc] at hsync
      simp at hsync
    | some us0 =>
      obtain ⟨cc2, us2, hc2, hu2⟩ :=
        markAsUnread_lookups s clientNumber chatId incrementBy now1 cc0 us0 hcc huc
      exact markAsRead_clears _ clientNumber chatId now2 cc2 us2 hc2 hu2

theorem claim_c6_witness :
    (∀ cache chat,
      findKey (ChatCache.markAsRead "client1" "chat1" 20
        (ChatCache.markAsUnread "client1" "chat1" 1 10
          ⟨[("client1", [("chat1", ⟨"chat1", "Ana", false, 0, 5, none, none⟩)])],
           [("client1", [])], []⟩)).chatCache "client1" = some cache →
      findKey cache "chat1" = some chat → chat.unreadCount = 0) ∧
    (∀ u,
      findKey (ChatCache.markAsRead "client1" "chat1" 20
        (ChatCache.markAsUnread "client1" "chat1" 1 10
          ⟨[("client1", [("chat1", ⟨"chat1", "Ana", false, 0, 5, none, none⟩)])],
           [("client1", [])], []⟩)).unreadChats "client1" = some u →
      "chat1" ∉ u) :=
  claim_c6_roundtrip
    ⟨[("client1", [("chat1", ⟨"chat1", "Ana", false, 0, 5, none, none⟩)])],
     [("client1", [])], []⟩ "client1" "chat1" 1 10 20 (by decide)

/-- C7 (counterexample): `checkStateValid` also returns false when the
client has no state entry at all, which is not a case of being stuck past
a threshold in a transitional state, so the "exactly when" claim fails. -/
theorem claim_c7_counterexample :
    Watchdog.checkStateValid none 0 = false ∧
    Watchdog.stuckPastThresholdSpec none 0 = false :=
  ⟨rfl, rfl⟩

/-- C7 (amended: the check is also false when the state entry is absent):
`checkStateValid` returns false exactly when the state entry is absent or
the client is stuck past a threshold in a transitional state (WAITING_QR
beyond 180s, INITIALIZING beyond 300s, AUTHENTICATING/RECONNECTING/
DISCONNECTED beyond 900s); and when process-alive and responsive pass but
state-valid fails, recovery runs `refreshClient`, falling back to
`fullRestart` exactly when the refresh throws. -/
theorem claim_c7_amended (state : Option ClientStateManager.StateEntry) (now : Nat)
    (checks : Watchdog.HealthChecks) (refreshThrows wsThrows : Bool)
    (hpa : checks.processAlive = true) (hbr : checks.browserResponsive = true)
    (hsv : checks.stateValid = false) :
    (Watchdog.checkStateValid state now = false ↔
      (state = none ∨ Watchdog.stuckPastThresholdSpec state now = true)) ∧
    Watchdog.attemptRecovery checks refreshThrows wsThrows =
      (if refreshThrows then
        [Watchdog.RecoveryStep.refresh, Watchdog.RecoveryStep.fullRestart]
      else [Watchdog.RecoveryStep.refresh]) := by
  constructor
  · cases state with
    | none => simp [Watchdog.checkStateValid, Watchdog.stuckPastThresholdSpec]
    | some st =>
      simp only [Watchdog.checkStateValid, Watchdog.stuckPastThresholdSpec,
        Watchdog.maxQrAge, Watchdog.maxInitializationTime, Watchdog.maxStateAge,
        Option.some_ne_none, false_or, decide_eq_true_eq]
      split_ifs with h1 h2 h3 <;> simp_all
  · unfold Watchdog.attemptRecovery
    simp [hpa, hbr, hsv]

theorem claim_c7_witness :
    Watchdog.checkStateValid
      (some ⟨ClientStateManager.ClientState.WAITING_QR, 0, [], none⟩) 200000 = false ∧
    Watchdog.attemptRecovery ⟨true, true, false, true⟩ true false =
      [Watchdog.RecoveryStep.refresh, Watchdog.RecoveryStep.fullRestart] :=
  ⟨(claim_c7_amended (some ⟨ClientStateManager.ClientState.WAITING_QR, 0, [], none⟩)
      200000 ⟨true, true, false, true⟩ true false rfl rfl rfl).1.mpr
      (Or.inr (by decide)),
   by
    have h := (claim_c7_amended (some ⟨ClientStateManager.ClientState.WAITING_QR, 0, [], none⟩)
      200000 ⟨true, true, false, true⟩ true false rfl rfl rfl).2
    simpa using h⟩

theorem jobLE_refl (a : MediaQueue.MediaJob) : MediaQueue.jobLE a a = true := by
  simp [MediaQueue.jobLE]

theorem jobLE_trans (a b c : MediaQueue.MediaJob) :
    MediaQueue.jobLE a b = true → MediaQueue.jobLE b c = true →
    MediaQueue.jobLE a c = true := by
  simp only [MediaQueue.jobLE]
  intro h1 h2
  by_cases hab : a.priority = b.priority <;>
    by_cases hbc : b.priority = c.priority <;>
    by_cases hac : a.priority = c.priority <;>
    simp_all <;> omega

theorem jobLE_total (a b : MediaQueue.MediaJob) :
    (MediaQueue.jobLE a b || MediaQueue.jobLE b a) = true := by
  simp only [MediaQueue.jobLE]
  by_cases h : a.priority = b.priority
  · have hn1 : ¬ (a.priority ≠ b.priority) := fun hne => hne h
    have hn2 : ¬ (b.priority ≠ a.priority) := fun hne => hne h.symm
    rw [if_neg hn1, if_neg hn2]
    rcases Nat.le_total a.enqueuedAt b.enqueuedAt with hle | hle
    · simp [hle]
    · simp [hle]
  · have h2 : b.priority ≠ a.priority := fun e => h e.symm
    rw [if_pos h, if_pos h2]
    rcases Nat.lt_or_ge a.priority b.priority with hlt | hge
    · simp [hlt]
    · have hgt : b.priority < a.priority := by omega
      simp [hgt]

/-- C8: whenever the media queue is non-empty, `getNextJob` hands out a
queued job that is minimal under (priority ascending, enqueuedAt
ascending): lower numeric priority first, FIFO among equal priorities. -/
theorem claim_c8_priority_order (s : MediaQueue.MQState) (h : s.queue ≠ []) :
    ∃ job s2, MediaQueue.getNextJob s = some (job, s2) ∧
      job ∈ s.queue.map Prod.snd ∧
      ∀ k ∈ s.queue.map Prod.snd, MediaQueue.jobLE job k = true := by
  unfold MediaQueue.getNextJob
  have hmap : s.queue.map Prod.snd ≠ [] := by simpa using h
  cases hsort : (s.queue.map Prod.snd).mergeSort MediaQueue.jobLE with
  | nil =>
    exfalso
    have hperm := List.mergeSort_perm (s.queue.map Prod.snd) MediaQueue.jobLE
    rw [hsort] at hperm
    exact hmap hperm.symm.eq_nil
  | cons j t =>
    refine ⟨j, _, rfl, ?_, ?_⟩
    · have hj : j ∈ (s.queue.map Prod.snd).mergeSort MediaQueue.jobLE := by
        rw [hsort]
        exact List.mem_cons_self _ _
      exact List.mem_mergeSort.mp hj
    · intro k hk
      have hk2 : k ∈ (s.queue.map Prod.snd).mergeSort MediaQueue.jobLE :=
        List.mem_mergeSort.mpr hk
      rw [hsort] at hk2
      rcases List.mem_cons.mp hk2 with rfl | hk3
      · exact jobLE_refl _
      · have hs := @List.sorted_mergeSort MediaQueue.MediaJob MediaQueue.jobLE
          jobLE_trans jobLE_total (s.queue.map Prod.snd)
        rw [hsort] at hs
        exact (List.pairwise_cons.mp hs).1 k hk3

theorem claim_c8_witness :
    (⟨[("m1", ⟨"m1", "c1", 1, 0, 100, "image"⟩), ("m2", ⟨"m2", "c1", 0, 0, 200, "video"⟩)],
      [], []⟩ : MediaQueue.MQState).queue ≠ [] ∧
    (∃ job s2,
      MediaQueue.getNextJob
        ⟨[("m1", ⟨"m1", "c1", 1, 0, 100, "image"⟩), ("m2", ⟨"m2", "c1", 0, 0, 200, "video"⟩)],
          [], []⟩ = some (job, s2) ∧
      job ∈ ([("m1", ⟨"m1", "c1", 1, 0, 100, "image"⟩),
        ("m2", ⟨"m2", "c1", 0, 0, 200, "video"⟩)] :
          List (String × MediaQueue.MediaJob)).map Prod.snd ∧
      ∀ k ∈ ([("m1", ⟨"m1", "c1", 1, 0, 100, "image"⟩),
        ("m2", ⟨"m2", "c1", 0, 0, 200, "video"⟩)] :
          List (String × MediaQueue.MediaJob)).map Prod.snd,
        MediaQueue.jobLE job k = true) :=
  ⟨by decide,
   claim_c8_priority_order
     ⟨[("m1", ⟨"m1", "c1", 1, 0, 100, "image"⟩), ("m2", ⟨"m2", "c1", 0, 0, 200, "video"⟩)],
       [], []⟩ (by decide)⟩

theorem claim_c9_witness :
    ClientStateManager.isHealthy "client1"
      ⟨[("client1", ⟨ClientStateManager.ClientState.READY, 0, [], none⟩)], []⟩ = true :=
  (claim_c9_isHealthy "client1"
    ⟨[("client1", ⟨ClientStateManager.ClientState.READY, 0, [], none⟩)], []⟩).mpr
    ⟨⟨ClientStateManager.ClientState.READY, 0, [], none⟩, rfl, Or.inr rfl⟩
